import Mathlib

/-
Shallow embedding of the consolidation engine of the nuvini-ai-fpa
repository (src/consolidation: models.py, fx_converter.py, eliminations.py,
ppa.py, gaap_reconciliation.py, validation.py).

Modelling conventions:
  - Python Decimal values are modelled as exact rationals (ℚ).
  - Dates are modelled as integers counting days; timedelta(days=k) is
    integer subtraction or addition.  Calendar month arithmetic
    (dateutil relativedelta) is abstracted to a month index.
  - Python dicts read by key are modelled as association lists with
    List.lookup / List.find?, or as functions into Option.
  - Raising ValueError is modelled with Except String.
  - Nondeterministic fields (uuid4 ids, datetime.now timestamps) are
    dropped or replaced by caller-supplied identifiers, as no claim
    depends on them.
-/

namespace Consolidation

/-- Currency enum from models.py. -/
inductive Currency where
  | USD | BRL | EUR | GBP
deriving DecidableEq, Repr

/-- AccountType enum from models.py. -/
inductive AccountType where
  | BALANCE_SHEET_ASSET
  | BALANCE_SHEET_LIABILITY
  | BALANCE_SHEET_EQUITY
  | INCOME
  | EXPENSE
  | EQUITY_TRANSACTION
deriving DecidableEq, Repr

/-- FXRateType enum from models.py. -/
inductive FXRateType where
  | CLOSING | AVERAGE | HISTORICAL
deriving DecidableEq, Repr

/-- EliminationType enum from models.py. -/
inductive EliminationType where
  | RECEIVABLE_PAYABLE | REVENUE_EXPENSE | DIVIDEND | LOAN | EQUITY_INVESTMENT
deriving DecidableEq, Repr

/-- FXRate dataclass from models.py (rate_id and created_at dropped:
no claim depends on them). -/
structure FXRate where
  from_currency : Currency := Currency.USD
  to_currency : Currency := Currency.USD
  rate_date : Int := 0
  rate_type : FXRateType := FXRateType.CLOSING
  rate : ℚ := 1
  source : String := "Manual"
deriving DecidableEq, Repr

/-- FXRate.invert from models.py: swapped currencies, algebraic inverse
of the rate, annotated source. -/
def FXRate.invert (r : FXRate) : FXRate :=
  { from_currency := r.to_currency
    to_currency := r.from_currency
    rate_date := r.rate_date
    rate_type := r.rate_type
    rate := 1 / r.rate
    source := ("Inverse of ") ++ r.source }

/-- The FXRateManager rate dict, keyed by
(from_currency, to_currency, rate_date, rate_type).  Modelled as a list
of rates; lookup matches on the four key fields, which is exactly the
information the dict key carries since add_rate keys a rate by its own
fields. -/
abbrev RateStore := List FXRate

/-- Dict lookup self._rates.get((fc, tc, d, t)) in fx_converter.py. -/
def findRate (s : RateStore) (fc tc : Currency) (d : Int) (t : FXRateType) :
    Option FXRate :=
  List.find? (fun r =>
    decide (r.from_currency = fc ∧ r.to_currency = tc ∧
            r.rate_date = d ∧ r.rate_type = t)) s

/-- Re-stamping of a fallback rate in FXRateManager.get_rate: a new FXRate
with the requested date and an annotated source naming the prior date. -/
def restampRate (r : FXRate) (d prevDate : Int) : FXRate :=
  { from_currency := r.from_currency
    to_currency := r.to_currency
    rate_date := d
    rate_type := r.rate_type
    rate := r.rate
    source := r.source ++ (" (from ") ++ toString prevDate ++ (")") }

/-- The loop `for days_back in range(1, 8)` of FXRateManager.get_rate:
scan dates d - k, d - (k+1), ... while fuel remains, returning the first
stored rate re-stamped with the requested date d. -/
def scanBackAux (s : RateStore) (fc tc : Currency) (d : Int) (t : FXRateType) :
    Nat → Nat → Option FXRate
  | _, 0 => none
  | k, n + 1 =>
    match findRate s fc tc (d - (k : Int)) t with
    | some r => some (restampRate r d (d - (k : Int)))
    | none => scanBackAux s fc tc d t (k + 1) n

/-- FXRateManager.get_rate from fx_converter.py: same-currency
short-circuit to rate 1, then exact key, then inverse of the reverse key,
then up to 7 calendar days back, else none. -/
def getRate (s : RateStore) (fc tc : Currency) (d : Int) (t : FXRateType) :
    Option FXRate :=
  if fc = tc then
    some { from_currency := fc, to_currency := tc, rate_date := d,
           rate_type := t, rate := 1, source := "Same Currency" }
  else
    match findRate s fc tc d t with
    | some r => some r
    | none =>
      match findRate s tc fc d t with
      | some r => some r.invert
      | none => scanBackAux s fc tc d t 1 7

/-- The while loop of get_average_rate walks every day from start_date to
end_date inclusive. -/
def dateRange (s e : Int) : List Int :=
  (List.range (e - s + 1).toNat).map (fun i => s + (i : Int))

/-- FXRateManager.get_average_rate from fx_converter.py: collects
get_rate(fc, tc, day, CLOSING) for every day of the window, skips days
where get_rate returns nothing, and averages the rest; none when no rate
was collected. -/
def getAverageRate (s : RateStore) (fc tc : Currency) (startD endD : Int) :
    Option FXRate :=
  if fc = tc then
    some { from_currency := fc, to_currency := tc, rate_date := endD,
           rate_type := FXRateType.AVERAGE, rate := 1,
           source := "Same Currency" }
  else
    let rates := (dateRange startD endD).filterMap
      (fun dd => (getRate s fc tc dd FXRateType.CLOSING).map FXRate.rate)
    if rates.isEmpty then none
    else
      some { from_currency := fc, to_currency := tc, rate_date := endD,
             rate_type := FXRateType.AVERAGE,
             rate := rates.sum / (rates.length : ℚ),
             source := "Average of daily rates" }

/-- TrialBalanceEntry dataclass from models.py. -/
structure TrialBalanceEntry where
  entry_id : String := ""
  entity_id : String := ""
  period_end_date : Int := 0
  account_code : String := ""
  account_name : String := ""
  account_type : AccountType := AccountType.BALANCE_SHEET_ASSET
  debit_amount : ℚ := 0
  credit_amount : ℚ := 0
  currency : Currency := Currency.USD
  description : Option String := none
deriving DecidableEq, Repr

/-- Property net_amount of TrialBalanceEntry: debit minus credit. -/
def TrialBalanceEntry.net_amount (e : TrialBalanceEntry) : ℚ :=
  e.debit_amount - e.credit_amount

/-- Property amount_functional of TrialBalanceEntry: absolute net amount. -/
def TrialBalanceEntry.amount_functional (e : TrialBalanceEntry) : ℚ :=
  |e.net_amount|

/-- ConvertedEntry dataclass from models.py.  The dataclass
__post_init__ resets converted_amount to the net amount when the entry
currency already is the presentation currency; every construction site in
the embedded code already satisfies that equation, so the field is kept
plain. -/
structure ConvertedEntry where
  original_entry : TrialBalanceEntry
  presentation_currency : Currency
  fx_rate : FXRate
  converted_amount : ℚ
  cta_amount : ℚ := 0
  conversion_method : String := "Standard"
deriving DecidableEq, Repr

/-- IntercompanyTransaction dataclass from models.py (transaction_id
dropped: uuid). -/
structure IntercompanyTransaction where
  entity_a_id : String := ""
  entity_b_id : String := ""
  elimination_type : EliminationType := EliminationType.RECEIVABLE_PAYABLE
  amount_entity_a : ℚ := 0
  amount_entity_b : ℚ := 0
  currency_a : Currency := Currency.USD
  currency_b : Currency := Currency.USD
  transaction_date : Int := 0
  reference_number : Option String := none
  is_eliminated : Bool := false
  fx_gain_loss : ℚ := 0
deriving DecidableEq, Repr

/-- The fx_rates argument of match_receivables_payables: a dict keyed by
a currency pair, read-only, so modelled as a function into Option. -/
abbrev FXRateDict := Currency × Currency → Option FXRate

/-- Default tolerance_percentage of IntercompanyMatcher.__init__
(Decimal 0.01, i.e. one percent). -/
def defaultTolerancePercentage : ℚ := 1 / 100

/-- IntercompanyMatcher._is_matching_pair from eliminations.py.  Returns
(is_match, fx_difference).  When the currencies differ and the dict holds
a rate for (currency_a, currency_b), the converted amount of entry a is
compared against amount b with tolerance amount_b * tolerance_percentage;
in every other case the raw amounts are compared with tolerance
max(amount_a, amount_b) * tolerance_percentage. -/
def isMatchingPair (tol : ℚ) (entry_a entry_b : TrialBalanceEntry)
    (fx_rates : FXRateDict) : Bool × ℚ :=
  let amount_a := entry_a.amount_functional
  let amount_b := entry_b.amount_functional
  let sameCurrencyCompare : Bool × ℚ :=
    (decide (|amount_a - amount_b| ≤ max amount_a amount_b * tol), 0)
  if entry_a.currency ≠ entry_b.currency then
    match fx_rates (entry_a.currency, entry_b.currency) with
    | some r =>
      let amount_a_converted := amount_a * r.rate
      let difference := |amount_a_converted - amount_b|
      let tolerance := amount_b * tol
      let is_match := decide (difference ≤ tolerance)
      (is_match, if is_match then amount_a_converted - amount_b else 0)
    | none => sameCurrencyCompare
  else sameCurrencyCompare

/-- State threaded through the nested loops of
match_receivables_payables: accumulated matches and the two sets of
already matched entry ids. -/
structure MatchState where
  matchList : List IntercompanyTransaction := []
  matchedR : List String := []
  matchedP : List String := []
deriving DecidableEq, Repr

/-- Body of the inner loop of
IntercompanyMatcher.match_receivables_payables: skip when either entry
was already matched or the entities coincide, otherwise record the pair
when _is_matching_pair accepts it. -/
def matchStep (tol : ℚ) (fx_rates : FXRateDict) (st : MatchState)
    (ar ap : TrialBalanceEntry) : MatchState :=
  if ar.entry_id ∈ st.matchedR ∨ ap.entry_id ∈ st.matchedP then st
  else if ar.entity_id = ap.entity_id then st
  else
    let res := isMatchingPair tol ar ap fx_rates
    if res.1 then
      { matchList := st.matchList ++
          [{ entity_a_id := ar.entity_id
             entity_b_id := ap.entity_id
             elimination_type := EliminationType.RECEIVABLE_PAYABLE
             amount_entity_a := ar.amount_functional
             amount_entity_b := ap.amount_functional
             currency_a := ar.currency
             currency_b := ap.currency
             transaction_date := ar.period_end_date
             reference_number := ar.description
             fx_gain_loss := res.2 }]
        matchedR := ar.entry_id :: st.matchedR
        matchedP := ap.entry_id :: st.matchedP }
    else st

/-- IntercompanyMatcher.match_receivables_payables from eliminations.py:
the nested for loops over receivables and payables. -/
def matchReceivablesPayables (tol : ℚ) (receivables payables : List TrialBalanceEntry)
    (fx_rates : FXRateDict) : List IntercompanyTransaction :=
  (receivables.foldl
    (fun st ar => payables.foldl (fun st ap => matchStep tol fx_rates st ar ap) st)
    {}).matchList

/-- FXConverter._get_rate_type_for_account from fx_converter.py. -/
def rateTypeForAccount (a : AccountType) : FXRateType :=
  match a with
  | AccountType.INCOME => FXRateType.AVERAGE
  | AccountType.EXPENSE => FXRateType.AVERAGE
  | AccountType.EQUITY_TRANSACTION => FXRateType.HISTORICAL
  | _ => FXRateType.CLOSING

/-- The mutable per-entity CTA balances of FXConverter. -/
structure FXConverterState where
  cta_balances : List (String × ℚ) := []
deriving DecidableEq, Repr

/-- FXConverter._calculate_cta from fx_converter.py: adds a placeholder
two-percent variance of the converted amount to the entity balance and
returns the new balance together with the updated state. -/
def calculateCTA (st : FXConverterState) (entityId : String)
    (amount currentRate : ℚ) : ℚ × FXConverterState :=
  let old := (List.lookup entityId st.cta_balances).getD 0
  let ctaChange := amount * currentRate * (2 / 100)
  let newBal := old + ctaChange
  (newBal, { cta_balances := (entityId, newBal) :: st.cta_balances })

/-- FXConverter.convert_trial_balance_entry from fx_converter.py:
same-currency entries pass through at rate 1; otherwise the rate type is
chosen by account classification, the rate is resolved (average over the
period for AVERAGE, point lookup otherwise), a missing rate raises, and
the converted amount is net_amount * rate, with CTA tracked for balance
sheet asset and liability items. -/
def convertTrialBalanceEntry (s : RateStore) (st : FXConverterState)
    (entry : TrialBalanceEntry) (presentationCurrency : Currency)
    (periodStartDate : Int) :
    Except String (ConvertedEntry × FXConverterState) :=
  if entry.currency = presentationCurrency then
    Except.ok
      ({ original_entry := entry
         presentation_currency := presentationCurrency
         fx_rate := { from_currency := entry.currency
                      to_currency := presentationCurrency
                      rate_date := entry.period_end_date
                      rate := 1
                      source := "Same Currency" }
         converted_amount := entry.net_amount
         conversion_method := "No conversion needed" }, st)
  else
    let rt := rateTypeForAccount entry.account_type
    let fxRateOpt :=
      if rt = FXRateType.AVERAGE then
        getAverageRate s entry.currency presentationCurrency
          periodStartDate entry.period_end_date
      else
        getRate s entry.currency presentationCurrency entry.period_end_date rt
    match fxRateOpt with
    | none => Except.error ("No exchange rate found")
    | some fxRate =>
      let convertedAmount := entry.net_amount * fxRate.rate
      let ctaRes :=
        if entry.account_type = AccountType.BALANCE_SHEET_ASSET ∨
           entry.account_type = AccountType.BALANCE_SHEET_LIABILITY then
          calculateCTA st entry.entity_id entry.net_amount fxRate.rate
        else (0, st)
      Except.ok
        ({ original_entry := entry
           presentation_currency := presentationCurrency
           fx_rate := fxRate
           converted_amount := convertedAmount
           cta_amount := ctaRes.1
           conversion_method := "rate method per IFRS 21" }, ctaRes.2)

/-- PurchasePriceAllocation dataclass from models.py (ppa_id kept as a
caller-supplied string instead of a uuid).  The intangible_assets dict
(name to fair value) and the amortization_schedule dict (name to useful
life in years) are association lists. -/
structure PurchasePriceAllocation where
  ppa_id : String := ""
  entity_id : String := ""
  acquisition_date : Int := 0
  purchase_price : ℚ := 0
  fair_value_net_assets : ℚ := 0
  goodwill : ℚ := 0
  intangible_assets : List (String × ℚ) := []
  amortization_schedule : List (String × Nat) := []
  currency : Currency := Currency.USD
deriving DecidableEq, Repr

/-- Property total_intangibles of PurchasePriceAllocation: sum of the
fair values of the identified intangible assets. -/
def PurchasePriceAllocation.total_intangibles (p : PurchasePriceAllocation) : ℚ :=
  (p.intangible_assets.map Prod.snd).sum

/-- Constructor of PurchasePriceAllocation including its __post_init__:
a goodwill of exactly 0 is replaced by purchase_price minus
fair_value_net_assets, ignoring the intangibles. -/
def mkPPA (ppaId entityId : String) (acqDate : Int)
    (purchasePrice fairValueNetAssets goodwill : ℚ)
    (intangibles : List (String × ℚ)) (amortPeriods : List (String × Nat))
    (cur : Currency) : PurchasePriceAllocation :=
  { ppa_id := ppaId
    entity_id := entityId
    acquisition_date := acqDate
    purchase_price := purchasePrice
    fair_value_net_assets := fairValueNetAssets
    goodwill := if goodwill = 0 then purchasePrice - fairValueNetAssets else goodwill
    intangible_assets := intangibles
    amortization_schedule := amortPeriods
    currency := cur }

/-- PPACalculator.calculate_ppa from ppa.py: goodwill is purchase price
minus fair value of net assets minus total identified intangibles, and
the PurchasePriceAllocation dataclass (with its __post_init__) is built
from the inputs. -/
def calculatePPA (ppaId entityId : String) (acqDate : Int)
    (purchasePrice fairValueNetAssets : ℚ)
    (identifiedIntangibles : List (String × ℚ))
    (amortizationPeriods : List (String × Nat)) (cur : Currency) :
    PurchasePriceAllocation :=
  let totalIntangibles := (identifiedIntangibles.map Prod.snd).sum
  let goodwill := purchasePrice - fairValueNetAssets - totalIntangibles
  mkPPA ppaId entityId acqDate purchasePrice fairValueNetAssets goodwill
    identifiedIntangibles amortizationPeriods cur

/-- Validation failures of PPACalculator.validate_ppa.  The Python code
collects human-readable strings; the message identity is abstracted to
this inductive so that membership is stable under the numeric payload of
the message. -/
inductive PPAError where
  | purchasePriceNotPositive
  | fairValueNotPositive
  | missingAmortizationPeriod (name : String)
  | goodwillMismatch
deriving DecidableEq, Repr

/-- PPACalculator.validate_ppa from ppa.py: purchase price and fair value
must be positive, every intangible needs a period in the amortization
schedule, and the stored goodwill may deviate from
purchase_price - fair_value_net_assets - total_intangibles by at most
0.01.  Returns (no errors found, error list). -/
def validatePPA (ppa : PurchasePriceAllocation) : Bool × List PPAError :=
  let errs1 : List PPAError :=
    if ppa.purchase_price ≤ 0 then [PPAError.purchasePriceNotPositive] else []
  let errs2 : List PPAError :=
    if ppa.fair_value_net_assets ≤ 0 then [PPAError.fairValueNotPositive] else []
  let errs3 : List PPAError :=
    ppa.intangible_assets.filterMap (fun nv =>
      if (List.lookup nv.1 ppa.amortization_schedule).isNone then
        some (PPAError.missingAmortizationPeriod nv.1)
      else none)
  let expectedGoodwill :=
    ppa.purchase_price - ppa.fair_value_net_assets - ppa.total_intangibles
  let errs4 : List PPAError :=
    if |ppa.goodwill - expectedGoodwill| > 1 / 100 then
      [PPAError.goodwillMismatch]
    else []
  let errs := errs1 ++ errs2 ++ errs3 ++ errs4
  (errs.isEmpty, errs)

/-- AmortizationEntry dataclass from models.py; the period_end_date built
with dateutil relativedelta is abstracted to the month index from the
schedule start. -/
structure AmortizationEntry where
  ppa_id : String := ""
  month_num : Nat := 0
  asset_name : String := ""
  monthly_amortization : ℚ := 0
  accumulated_amortization : ℚ := 0
  remaining_value : ℚ := 0
  debit_account : String := "Amortization Expense"
  credit_account : String := "Accumulated Amortization"
deriving DecidableEq, Repr

/-- The `for month_num in range(min(months, total_months))` loop of
AmortizationScheduler.create_monthly_schedule, with the running
accumulated amortization threaded through and the remaining fuel counting
the months still to generate. -/
def buildEntriesAux (ppaId assetName : String) (monthly value : ℚ) :
    Nat → ℚ → Nat → List AmortizationEntry
  | _, _, 0 => []
  | monthNum, acc, fuel + 1 =>
    let acc2 := acc + monthly
    { ppa_id := ppaId
      month_num := monthNum
      asset_name := assetName
      monthly_amortization := monthly
      accumulated_amortization := acc2
      remaining_value := value - acc2 } ::
      buildEntriesAux ppaId assetName monthly value (monthNum + 1) acc2 fuel

/-- Schedule of one intangible inside
AmortizationScheduler.create_monthly_schedule: a missing useful life, or
a falsy one (0 years), skips the intangible; otherwise straight-line
monthly amortization fair value divided by useful_life_years * 12 over
min(months, total_months) entries. -/
def schedFor (amortSchedule : List (String × Nat)) (ppaId assetName : String)
    (value : ℚ) (months : Nat) : Option (List AmortizationEntry) :=
  match List.lookup assetName amortSchedule with
  | none => none
  | some y =>
    if y = 0 then none
    else
      let totalMonths := y * 12
      let monthly := value / ((totalMonths : ℚ))
      some (buildEntriesAux ppaId assetName monthly value 0 0 (min months totalMonths))

/-- AmortizationScheduler.create_monthly_schedule from ppa.py: per
intangible schedules keyed by name; intangibles without a configured
(nonzero) useful life yield no key. -/
def createMonthlySchedule (ppa : PurchasePriceAllocation) (months : Nat) :
    List (String × List AmortizationEntry) :=
  ppa.intangible_assets.filterMap (fun nv =>
    (schedFor ppa.amortization_schedule ppa.ppa_id nv.1 nv.2 months).map
      (fun l => (nv.1, l)))

/-- Default months argument of create_monthly_schedule (120 = 10 years). -/
def defaultScheduleMonths : Nat := 120

/-- PPAManager.create_ppa from ppa.py: calculate, validate (raising on
any validation error), then generate the monthly amortization schedule. -/
def createPPA (ppaId entityId : String) (acqDate : Int)
    (purchasePrice fairValueNetAssets : ℚ)
    (identifiedIntangibles : List (String × ℚ))
    (amortizationPeriods : List (String × Nat)) (cur : Currency) :
    Except (List PPAError)
      (PurchasePriceAllocation × List (String × List AmortizationEntry)) :=
  let ppa := calculatePPA ppaId entityId acqDate purchasePrice
    fairValueNetAssets identifiedIntangibles amortizationPeriods cur
  let v := validatePPA ppa
  if v.1 then Except.ok (ppa, createMonthlySchedule ppa defaultScheduleMonths)
  else Except.error v.2

/-- EliminationEntry dataclass from models.py (uuid and timestamps
dropped). -/
structure EliminationEntry where
  intercompany_transaction : IntercompanyTransaction
  period_end_date : Int := 0
  debit_account : String := ""
  credit_account : String := ""
  elimination_amount : ℚ := 0
  currency : Currency := Currency.USD
  fx_gain_loss_account : Option String := none
  fx_gain_loss_amount : ℚ := 0
deriving DecidableEq, Repr

/-- ConsolidatedFinancials dataclass from models.py (uuid, timestamps and
approval metadata dropped). -/
structure ConsolidatedFinancials where
  period_end_date : Int := 0
  presentation_currency : Currency := Currency.USD
  entities_included : List String := []
  trial_balance : List ConvertedEntry := []
  eliminations : List EliminationEntry := []
  ppa_adjustments : List AmortizationEntry := []
  total_assets : ℚ := 0
  total_liabilities : ℚ := 0
  total_equity : ℚ := 0
  total_revenue : ℚ := 0
  total_expenses : ℚ := 0
  net_income : ℚ := 0
  total_cta : ℚ := 0
  is_balanced : Bool := false
  validation_errors : List String := []
deriving DecidableEq, Repr

/-- GAAPReconciliation dataclass from models.py (uuid dropped); the
adjustments dict is an association list. -/
structure GAAPReconciliation where
  period_end_date : Int := 0
  ifrs_net_income : ℚ := 0
  us_gaap_net_income : ℚ := 0
  adjustments : List (String × ℚ) := []
  development_costs_capitalization : ℚ := 0
  lease_classification : ℚ := 0
  revenue_recognition : ℚ := 0
  goodwill_impairment : ℚ := 0
  other_adjustments : ℚ := 0
deriving DecidableEq, Repr

/-- Property total_adjustments of GAAPReconciliation: sum of all
reconciling adjustments. -/
def GAAPReconciliation.total_adjustments (r : GAAPReconciliation) : ℚ :=
  (r.adjustments.map Prod.snd).sum

/-- GAAPReconciliation.validate_reconciliation from models.py: IFRS net
income plus total adjustments must equal US GAAP net income within the
tolerance (default 0.01). -/
def validateReconciliation (r : GAAPReconciliation) (tolerance : ℚ) : Bool :=
  decide (|r.ifrs_net_income + r.total_adjustments - r.us_gaap_net_income| ≤ tolerance)

/-- ReconciliationEngine.create_reconciliation from
gaap_reconciliation.py: US GAAP net income is computed as IFRS net income
plus the sum of the adjustments, the GAAPReconciliation is built, and a
failed validate_reconciliation raises. -/
def createReconciliation (ifrsFinancials : ConsolidatedFinancials)
    (adjustments : List (String × ℚ)) (periodEndDate : Int) :
    Except String GAAPReconciliation :=
  let ifrsNetIncome := ifrsFinancials.net_income
  let totalAdjustments := (adjustments.map Prod.snd).sum
  let usGaapNetIncome := ifrsNetIncome + totalAdjustments
  let reconciliation : GAAPReconciliation :=
    { period_end_date := periodEndDate
      ifrs_net_income := ifrsNetIncome
      us_gaap_net_income := usGaapNetIncome
      adjustments := adjustments
      development_costs_capitalization :=
        (List.lookup ("development_costs") adjustments).getD 0
      lease_classification :=
        (List.lookup ("lease_classification") adjustments).getD 0
      revenue_recognition :=
        (List.lookup ("revenue_recognition") adjustments).getD 0
      goodwill_impairment :=
        (List.lookup ("goodwill_impairment") adjustments).getD 0
      other_adjustments := (List.lookup ("other") adjustments).getD 0 }
  if validateReconciliation reconciliation (1 / 100) then
    Except.ok reconciliation
  else Except.error ("Reconciliation does not balance")

/-- ConsolidationValidator.calculate_accuracy_score from validation.py:
the balance sheet score max(0, 1 - |A - (L + E)| / A) joins the list only
when total assets are positive, the net income score
max(0, 1 - |NI - (R - X)| / |R - X|) only when |R - X| is positive, and
the result is the mean of the collected scores, 0 when none applies. -/
def calculateAccuracyScore (c : ConsolidatedFinancials) : ℚ :=
  let bsDiff := |c.total_assets - (c.total_liabilities + c.total_equity)|
  let bsScores : List ℚ :=
    if 0 < c.total_assets then [max 0 (1 - bsDiff / c.total_assets)] else []
  let calculatedNI := c.total_revenue - c.total_expenses
  let niScores : List ℚ :=
    if 0 < |calculatedNI| then
      [max 0 (1 - |c.net_income - calculatedNI| / |calculatedNI|)]
    else []
  let scores := bsScores ++ niScores
  if scores.isEmpty then 0 else scores.sum / (scores.length : ℚ)

/-- Helper: whether an Except value is an error (a raised ValueError in
the Python code). -/
def exceptHasError {ε α : Type} : Except ε α → Bool
  | Except.error _ => true
  | Except.ok _ => false

/-- C6: For every ConsolidatedFinancials input and every adjustments
mapping, create_reconciliation raises exactly when the absolute value of
ifrs_net_income plus the adjustment sum minus us_gaap_net_income exceeds
the 1-cent tolerance (us_gaap_net_income being computed as
ifrs_net_income plus the adjustment sum, this never happens), and every
GAAPReconciliation it successfully returns satisfies
ifrs_net_income + total_adjustments = us_gaap_net_income exactly. -/
theorem c6_reconciliation_round_trip
    (fin : ConsolidatedFinancials) (adjs : List (String × ℚ)) (ped : Int) :
    (exceptHasError (createReconciliation fin adjs ped) = true ↔
      |fin.net_income + (adjs.map Prod.snd).sum -
        (fin.net_income + (adjs.map Prod.snd).sum)| > 1 / 100) ∧
    (∀ r, createReconciliation fin adjs ped = Except.ok r →
      r.ifrs_net_income + r.total_adjustments = r.us_gaap_net_income) := by
  constructor
  · simp [createReconciliation, validateReconciliation, exceptHasError,
      GAAPReconciliation.total_adjustments]
  · intro r hr
    simp [createReconciliation, validateReconciliation,
      GAAPReconciliation.total_adjustments] at hr
    subst hr
    simp [GAAPReconciliation.total_adjustments]

/-- C5 counterexample: when purchase_price - fair_value_net_assets -
total intangibles is exactly 0 and the intangibles are nonzero, the
goodwill of the allocation produced by calculate_ppa differs from the
goodwill formula of the claim (the dataclass __post_init__ rewrites a
zero goodwill to purchase_price - fair_value_net_assets). -/
theorem c5_goodwill_formula_counterexample :
    (calculatePPA ("p1") ("e1") 0 100 50 [("brand", (50 : ℚ))]
        [("brand", 5)] Currency.USD).goodwill ≠
      100 - 50 - (([("brand", (50 : ℚ))].map Prod.snd).sum) := by
  norm_num [calculatePPA, mkPPA]

/-- C5 amended: whenever purchase_price - fair_value_net_assets - total
intangibles is nonzero, calculate_ppa produces an allocation whose
goodwill equals that formula; and validate_ppa rejects any allocation
whose goodwill deviates from the formula by more than 0.01. -/
theorem c5_goodwill_formula_amended
    (ppaId entityId : String) (acqDate : Int) (pp fv : ℚ)
    (ints : List (String × ℚ)) (periods : List (String × Nat))
    (cur : Currency)
    (h : pp - fv - (ints.map Prod.snd).sum ≠ 0) :
    (calculatePPA ppaId entityId acqDate pp fv ints periods cur).goodwill =
      pp - fv - (ints.map Prod.snd).sum ∧
    ∀ p : PurchasePriceAllocation,
      |p.goodwill -
        (p.purchase_price - p.fair_value_net_assets - p.total_intangibles)|
        > 1 / 100 →
      (validatePPA p).1 = false := by
  constructor
  · simp [calculatePPA, mkPPA, h]
  · intro p hp
    simp only [validatePPA, hp, if_pos]
    simp [List.isEmpty_iff]

/-- C5 amended witness at a concrete allocation. -/
theorem c5_goodwill_formula_amended_witness :
    (100 : ℚ) - 30 - ([("brand", (50 : ℚ))].map Prod.snd).sum ≠ 0 ∧
    ((calculatePPA ("p1") ("e1") 0 100 30 [("brand", (50 : ℚ))]
        [("brand", 5)] Currency.USD).goodwill =
      100 - 30 - ([("brand", (50 : ℚ))].map Prod.snd).sum ∧
    ∀ p : PurchasePriceAllocation,
      |p.goodwill -
        (p.purchase_price - p.fair_value_net_assets - p.total_intangibles)|
        > 1 / 100 →
      (validatePPA p).1 = false) :=
  ⟨by norm_num,
   c5_goodwill_formula_amended ("p1") ("e1") 0 100 30 [("brand", (50 : ℚ))]
     [("brand", 5)] Currency.USD (by norm_num)⟩

/-- C10: a PurchasePriceAllocation constructed with goodwill exactly 0
silently receives purchase_price - fair_value_net_assets instead; in
particular via calculate_ppa when the goodwill formula yields 0, and when
the intangibles then sum to more than 0.01, validate_ppa reports a
goodwill calculation error and PPAManager.create_ppa raises. -/
theorem c10_zero_goodwill_replacement
    (ppaId entityId : String) (acqDate : Int) (pp fv goodwill : ℚ)
    (ints : List (String × ℚ)) (periods : List (String × Nat))
    (cur : Currency)
    (hg : goodwill = 0)
    (h : pp - fv - (ints.map Prod.snd).sum = 0) :
    (mkPPA ppaId entityId acqDate pp fv goodwill ints periods cur).goodwill =
      pp - fv ∧
    (calculatePPA ppaId entityId acqDate pp fv ints periods cur).goodwill =
      pp - fv ∧
    ((ints.map Prod.snd).sum > 1 / 100 →
      PPAError.goodwillMismatch ∈
        (validatePPA (calculatePPA ppaId entityId acqDate pp fv ints periods cur)).2 ∧
      (validatePPA (calculatePPA ppaId entityId acqDate pp fv ints periods cur)).1
        = false ∧
      exceptHasError
        (createPPA ppaId entityId acqDate pp fv ints periods cur) = true) := by
  subst hg
  have hcalc :
      (calculatePPA ppaId entityId acqDate pp fv ints periods cur).goodwill =
        pp - fv := by
    simp [calculatePPA, mkPPA, h]
  refine ⟨by simp [mkPPA], hcalc, fun hsum => ?_⟩
  have hdev :
      |(calculatePPA ppaId entityId acqDate pp fv ints periods cur).goodwill -
        ((calculatePPA ppaId entityId acqDate pp fv ints periods cur).purchase_price -
         (calculatePPA ppaId entityId acqDate pp fv ints periods cur).fair_value_net_assets -
         (calculatePPA ppaId entityId acqDate pp fv ints periods cur).total_intangibles)|
        > 1 / 100 := by
    have h1 : (calculatePPA ppaId entityId acqDate pp fv ints periods cur).purchase_price = pp := by
      simp [calculatePPA, mkPPA]
    have h2 : (calculatePPA ppaId entityId acqDate pp fv ints periods cur).fair_value_net_assets = fv := by
      simp [calculatePPA, mkPPA]
    have h3 : (calculatePPA ppaId entityId acqDate pp fv ints periods cur).total_intangibles =
        (ints.map Prod.snd).sum := by
      simp [calculatePPA, mkPPA, PurchasePriceAllocation.total_intangibles]
    rw [hcalc, h1, h2, h3]
    have hval : pp - fv - (pp - fv - (ints.map Prod.snd).sum) =
        (ints.map Prod.snd).sum := by ring
    have : pp - fv = (ints.map Prod.snd).sum := by linarith
    rw [this]
    have habs : |(ints.map Prod.snd).sum - ((ints.map Prod.snd).sum -
        (ints.map Prod.snd).sum)| = |(ints.map Prod.snd).sum| := by
      ring_nf
    calc (1 : ℚ) / 100 < (ints.map Prod.snd).sum := hsum
    _ ≤ |(ints.map Prod.snd).sum| := le_abs_self _
    _ = _ := by ring_nf
  have hmem : PPAError.goodwillMismatch ∈
      (validatePPA (calculatePPA ppaId entityId acqDate pp fv ints periods cur)).2 := by
    simp only [validatePPA, hdev, if_pos]
    simp
  have hfalse :
      (validatePPA (calculatePPA ppaId entityId acqDate pp fv ints periods cur)).1
        = false := by
    simp only [validatePPA, hdev, if_pos]
    simp [List.isEmpty_iff]
  refine ⟨hmem, hfalse, ?_⟩
  simp [createPPA, hfalse, exceptHasError]

/-- C10 witness at a concrete allocation: purchase price 100, fair value
50, one intangible of 50, so the goodwill formula yields 0. -/
theorem c10_zero_goodwill_replacement_witness :
    (0 : ℚ) = 0 ∧
    (100 : ℚ) - 50 - ([("brand", (50 : ℚ))].map Prod.snd).sum = 0 ∧
    ((mkPPA ("p1") ("e1") 0 100 50 0 [("brand", (50 : ℚ))] [("brand", 5)]
        Currency.USD).goodwill = 100 - 50 ∧
    (calculatePPA ("p1") ("e1") 0 100 50 [("brand", (50 : ℚ))] [("brand", 5)]
        Currency.USD).goodwill = 100 - 50 ∧
    (([("brand", (50 : ℚ))].map Prod.snd).sum > 1 / 100 →
      PPAError.goodwillMismatch ∈
        (validatePPA (calculatePPA ("p1") ("e1") 0 100 50
          [("brand", (50 : ℚ))] [("brand", 5)] Currency.USD)).2 ∧
      (validatePPA (calculatePPA ("p1") ("e1") 0 100 50
          [("brand", (50 : ℚ))] [("brand", 5)] Currency.USD)).1 = false ∧
      exceptHasError (createPPA ("p1") ("e1") 0 100 50
          [("brand", (50 : ℚ))] [("brand", 5)] Currency.USD) = true)) :=
  ⟨rfl, by norm_num,
   c10_zero_goodwill_replacement ("p1") ("e1") 0 100 50 0
     [("brand", (50 : ℚ))] [("brand", 5)] Currency.USD rfl (by norm_num)⟩

/-- C9 counterexample: with negative total assets the balance-sheet score
is dropped from the list instead of entering the average, so the result
differs from the claimed two-component average.  Here the code returns
1/2 while the claimed formula yields 3/4. -/
theorem c9_accuracy_score_counterexample :
    calculateAccuracyScore
      { total_assets := -100, total_liabilities := -60, total_equity := -40,
        total_revenue := 100, total_expenses := 0, net_income := 50 } = 1 / 2 ∧
    (max 0 (1 - |(-100 : ℚ) - ((-60) + (-40))| / (-100)) +
      max 0 (1 - |(50 : ℚ) - (100 - 0)| / |(100 : ℚ) - 0|)) / 2 = 3 / 4 := by
  constructor
  · norm_num [calculateAccuracyScore]
  · norm_num

/-- C9 amended: calculate_accuracy_score averages exactly the applicable
component scores: the balance-sheet score
max(0, 1 - |assets - (liabilities + equity)| / assets) is included only
when total assets are positive, the net-income score
max(0, 1 - |net income - (revenue - expenses)| / |revenue - expenses|)
only when revenue differs from expenses; with both applicable the result
is their two-component average, with one applicable it is that score
alone, and with neither applicable the score is 0. -/
theorem c9_accuracy_score_amended (c : ConsolidatedFinancials) :
    (0 < c.total_assets → c.total_revenue - c.total_expenses ≠ 0 →
      calculateAccuracyScore c =
        (max 0 (1 - |c.total_assets - (c.total_liabilities + c.total_equity)| /
            c.total_assets) +
         max 0 (1 - |c.net_income - (c.total_revenue - c.total_expenses)| /
            |c.total_revenue - c.total_expenses|)) / 2) ∧
    (0 < c.total_assets → c.total_revenue - c.total_expenses = 0 →
      calculateAccuracyScore c =
        max 0 (1 - |c.total_assets - (c.total_liabilities + c.total_equity)| /
          c.total_assets)) ∧
    (¬ 0 < c.total_assets → c.total_revenue - c.total_expenses ≠ 0 →
      calculateAccuracyScore c =
        max 0 (1 - |c.net_income - (c.total_revenue - c.total_expenses)| /
          |c.total_revenue - c.total_expenses|)) ∧
    (¬ 0 < c.total_assets → c.total_revenue - c.total_expenses = 0 →
      calculateAccuracyScore c = 0) := by
  refine ⟨?_, ?_, ?_, ?_⟩
  · intro hA hNI
    have habs : 0 < |c.total_revenue - c.total_expenses| := abs_pos.mpr hNI
    simp only [calculateAccuracyScore, if_pos hA, if_pos habs]
    simp
  · intro hA hNI
    have habs : ¬ 0 < |c.total_revenue - c.total_expenses| := by
      rw [hNI]
      simp
    simp only [calculateAccuracyScore, if_pos hA, if_neg habs]
    simp
  · intro hA hNI
    have habs : 0 < |c.total_revenue - c.total_expenses| := abs_pos.mpr hNI
    simp only [calculateAccuracyScore, if_neg hA, if_pos habs]
    simp
  · intro hA hNI
    have habs : ¬ 0 < |c.total_revenue - c.total_expenses| := by
      rw [hNI]
      simp
    simp only [calculateAccuracyScore, if_neg hA, if_neg habs]
    simp

/-- C9 amended witness at concrete consolidated results exercising the
both-applicable branch and the neither-applicable branch. -/
theorem c9_accuracy_score_amended_witness :
    ((0 : ℚ) < 100 ∧ (100 : ℚ) - 0 ≠ 0 ∧
    calculateAccuracyScore
      { total_assets := 100, total_liabilities := 60, total_equity := 40,
        total_revenue := 100, total_expenses := 0, net_income := 50 } =
      (max 0 (1 - |(100 : ℚ) - (60 + 40)| / 100) +
       max 0 (1 - |(50 : ℚ) - (100 - 0)| / |(100 : ℚ) - 0|)) / 2) ∧
    (¬ (0 : ℚ) < 0 ∧ (7 : ℚ) - 7 = 0 ∧
    calculateAccuracyScore
      { total_assets := 0, total_liabilities := 60, total_equity := 40,
        total_revenue := 7, total_expenses := 7, net_income := 50 } = 0) :=
  ⟨⟨by norm_num, by norm_num,
    (c9_accuracy_score_amended
      { total_assets := 100, total_liabilities := 60, total_equity := 40,
        total_revenue := 100, total_expenses := 0, net_income := 50 }).1
      (by norm_num) (by norm_num)⟩,
   ⟨by norm_num, by norm_num,
    (c9_accuracy_score_amended
      { total_assets := 0, total_liabilities := 60, total_equity := 40,
        total_revenue := 7, total_expenses := 7, net_income := 50 }).2.2.2
      (by norm_num) (by norm_num)⟩⟩

/-- Concrete receivable used for claim C1: 100 USD, entity A. -/
def arC1 : TrialBalanceEntry :=
  { entry_id := "r1", entity_id := "A", debit_amount := 100 }

/-- Concrete payable used for claim C1: 99 USD, entity B. -/
def apC1 : TrialBalanceEntry :=
  { entry_id := "p1", entity_id := "B", credit_amount := 99 }

/-- C1 counterexample: a same-currency receivable of 100 and payable of
99 are matched by match_receivables_payables at the default 1% tolerance
(the code compares against max(amount_a, amount_b) * tolerance), although
the claimed criterion |amount_a - amount_b| ≤ tolerance * amount_b
rejects the pair. -/
theorem c1_matching_counterexample :
    (matchReceivablesPayables defaultTolerancePercentage [arC1] [apC1]
      (fun _ => none)).length = 1 ∧
    ¬(|arC1.amount_functional - apC1.amount_functional| ≤
        defaultTolerancePercentage * apC1.amount_functional) := by
  constructor
  · norm_num [matchReceivablesPayables, matchStep, isMatchingPair, arC1, apC1,
      TrialBalanceEntry.amount_functional, TrialBalanceEntry.net_amount,
      defaultTolerancePercentage]
    decide
  · norm_num [arC1, apC1, TrialBalanceEntry.amount_functional,
      TrialBalanceEntry.net_amount, defaultTolerancePercentage]

/-- Characterization of the is_match component of _is_matching_pair:
cross-currency pairs with an available rate are compared after conversion
against tolerance * amount_b, every other pair is compared raw against
tolerance * max(amount_a, amount_b). -/
lemma isMatchingPair_fst_iff (tol : ℚ) (fx : FXRateDict)
    (a b : TrialBalanceEntry) :
    (isMatchingPair tol a b fx).1 = true ↔
      (if a.currency ≠ b.currency then
        match fx (a.currency, b.currency) with
        | some r =>
          |a.amount_functional * r.rate - b.amount_functional| ≤
            tol * b.amount_functional
        | none =>
          |a.amount_functional - b.amount_functional| ≤
            tol * max a.amount_functional b.amount_functional
      else
        |a.amount_functional - b.amount_functional| ≤
          tol * max a.amount_functional b.amount_functional) := by
  by_cases hc : a.currency = b.currency
  · simp [isMatchingPair, hc, mul_comm]
  · cases hfx : fx (a.currency, b.currency) with
    | none => simp [isMatchingPair, hc, hfx, mul_comm]
    | some r => simp [isMatchingPair, hc, hfx, mul_comm]

/-- C1 amended: a receivable/payable pair from different entities,
neither of which was already matched, is matched exactly when: if the
currencies differ and the rate table holds a rate for the pair, the
converted receivable amount is within tolerance_percentage * amount_b of
the payable amount; otherwise the raw amounts are within
tolerance_percentage * max(amount_a, amount_b) of each other (default
tolerance 1%). -/
theorem c1_matching_amended (tol : ℚ) (fx : FXRateDict) (st : MatchState)
    (ar ap : TrialBalanceEntry)
    (hR : ar.entry_id ∉ st.matchedR) (hP : ap.entry_id ∉ st.matchedP)
    (hE : ar.entity_id ≠ ap.entity_id) :
    ((matchStep tol fx st ar ap).matchList.length =
        st.matchList.length + 1 ↔
      (if ar.currency ≠ ap.currency then
        match fx (ar.currency, ap.currency) with
        | some r =>
          |ar.amount_functional * r.rate - ap.amount_functional| ≤
            tol * ap.amount_functional
        | none =>
          |ar.amount_functional - ap.amount_functional| ≤
            tol * max ar.amount_functional ap.amount_functional
      else
        |ar.amount_functional - ap.amount_functional| ≤
          tol * max ar.amount_functional ap.amount_functional)) ∧
    (¬(if ar.currency ≠ ap.currency then
        match fx (ar.currency, ap.currency) with
        | some r =>
          |ar.amount_functional * r.rate - ap.amount_functional| ≤
            tol * ap.amount_functional
        | none =>
          |ar.amount_functional - ap.amount_functional| ≤
            tol * max ar.amount_functional ap.amount_functional
      else
        |ar.amount_functional - ap.amount_functional| ≤
          tol * max ar.amount_functional ap.amount_functional) →
      matchStep tol fx st ar ap = st) := by
  rw [← isMatchingPair_fst_iff]
  have hnotmem : ¬(ar.entry_id ∈ st.matchedR ∨ ap.entry_id ∈ st.matchedP) :=
    not_or.mpr ⟨hR, hP⟩
  have hstep : matchStep tol fx st ar ap =
      if (isMatchingPair tol ar ap fx).1 then
        { matchList := st.matchList ++
            [{ entity_a_id := ar.entity_id
               entity_b_id := ap.entity_id
               elimination_type := EliminationType.RECEIVABLE_PAYABLE
               amount_entity_a := ar.amount_functional
               amount_entity_b := ap.amount_functional
               currency_a := ar.currency
               currency_b := ap.currency
               transaction_date := ar.period_end_date
               reference_number := ar.description
               fx_gain_loss := (isMatchingPair tol ar ap fx).2 }]
          matchedR := ar.entry_id :: st.matchedR
          matchedP := ap.entry_id :: st.matchedP } else st := by
    simp [matchStep, hnotmem, hE]
  by_cases hm : (isMatchingPair tol ar ap fx).1 = true
  · rw [hstep]
    simp [hm]
  · rw [hstep]
    simp [hm]

/-- C1 amended witness at the concrete same-currency pair. -/
theorem c1_matching_amended_witness :
    arC1.entry_id ∉ ({} : MatchState).matchedR ∧
    apC1.entry_id ∉ ({} : MatchState).matchedP ∧
    arC1.entity_id ≠ apC1.entity_id ∧
    (((matchStep (1 / 100) (fun _ => none) {} arC1 apC1).matchList.length =
        ({} : MatchState).matchList.length + 1 ↔
      (if arC1.currency ≠ apC1.currency then
        match (fun _ => none : FXRateDict) (arC1.currency, apC1.currency) with
        | some r =>
          |arC1.amount_functional * r.rate - apC1.amount_functional| ≤
            (1 / 100) * apC1.amount_functional
        | none =>
          |arC1.amount_functional - apC1.amount_functional| ≤
            (1 / 100) * max arC1.amount_functional apC1.amount_functional
      else
        |arC1.amount_functional - apC1.amount_functional| ≤
          (1 / 100) * max arC1.amount_functional apC1.amount_functional)) ∧
    (¬(if arC1.currency ≠ apC1.currency then
        match (fun _ => none : FXRateDict) (arC1.currency, apC1.currency) with
        | some r =>
          |arC1.amount_functional * r.rate - apC1.amount_functional| ≤
            (1 / 100) * apC1.amount_functional
        | none =>
          |arC1.amount_functional - apC1.amount_functional| ≤
            (1 / 100) * max arC1.amount_functional apC1.amount_functional
      else
        |arC1.amount_functional - apC1.amount_functional| ≤
          (1 / 100) * max arC1.amount_functional apC1.amount_functional) →
      matchStep (1 / 100) (fun _ => none) {} arC1 apC1 = {})) :=
  ⟨by simp, by simp, by simp [arC1, apC1],
   c1_matching_amended (1 / 100) (fun _ => none) {} arC1 apC1
     (by simp) (by simp) (by simp [arC1, apC1])⟩

/-- The backward scan finds nothing exactly when no rate is stored on any
of the scanned days. -/
lemma scanBackAux_none_iff (s : RateStore) (fc tc : Currency) (d : Int)
    (t : FXRateType) :
    ∀ (n k : Nat), scanBackAux s fc tc d t k n = none ↔
      ∀ j : Nat, k ≤ j → j < k + n → findRate s fc tc (d - (j : Int)) t = none := by
  intro n
  induction n with
  | zero =>
    intro k
    constructor
    · intro _ j h1 h2
      omega
    · intro _
      rfl
  | succ m ih =>
    intro k
    rw [scanBackAux]
    cases hf : findRate s fc tc (d - (k : Int)) t with
    | some r =>
      simp only []
      constructor
      · intro h
        exact absurd h (by simp)
      · intro h
        have hk := h k (le_refl k) (by omega)
        rw [hf] at hk
        exact absurd hk (by simp)
    | none =>
      simp only []
      rw [ih (k + 1)]
      constructor
      · intro h j h1 h2
        rcases eq_or_lt_of_le h1 with he | hl
        · rw [← he]
          exact hf
        · exact h j hl (by omega)
      · intro h j h1 h2
        exact h j (by omega) (by omega)

/-- The backward scan returns a rate exactly when some scanned day holds
a stored rate, the returned value is that nearest stored rate (all
strictly closer scanned days empty) re-stamped with the requested date. -/
lemma scanBackAux_some_iff (s : RateStore) (fc tc : Currency) (d : Int)
    (t : FXRateType) :
    ∀ (n k : Nat) (r : FXRate), scanBackAux s fc tc d t k n = some r ↔
      ∃ j : Nat, k ≤ j ∧ j < k + n ∧
        (∃ r₀, findRate s fc tc (d - (j : Int)) t = some r₀ ∧
          r = restampRate r₀ d (d - (j : Int))) ∧
        ∀ i : Nat, k ≤ i → i < j → findRate s fc tc (d - (i : Int)) t = none := by
  intro n
  induction n with
  | zero =>
    intro k r
    constructor
    · intro h
      exact absurd h (by simp [scanBackAux])
    · rintro ⟨j, h1, h2, _, _⟩
      omega
  | succ m ih =>
    intro k r
    rw [scanBackAux]
    cases hf : findRate s fc tc (d - (k : Int)) t with
    | some r₀ =>
      simp only [Option.some_inj]
      constructor
      · intro h
        refine ⟨k, le_refl k, by omega, ⟨r₀, hf, h.symm⟩, ?_⟩
        intro i h1 h2
        omega
      · rintro ⟨j, h1, h2, ⟨r₁, hfind, hr⟩, hmin⟩
        rcases eq_or_lt_of_le h1 with he | hl
        · rw [← he] at hfind
          rw [hf] at hfind
          cases hfind
          rw [hr, he]
        · have := hmin k (le_refl k) hl
          rw [hf] at this
          exact absurd this (by simp)
    | none =>
      simp only []
      rw [ih (k + 1)]
      constructor
      · rintro ⟨j, h1, h2, hex, hmin⟩
        refine ⟨j, by omega, by omega, hex, ?_⟩
        intro i hi1 hi2
        rcases eq_or_lt_of_le hi1 with he | hl
        · rw [← he]
          exact hf
        · exact hmin i hl hi2
      · rintro ⟨j, h1, h2, hex, hmin⟩
        have hjk : k ≠ j := by
          intro he
          rcases hex with ⟨r₁, hfind, _⟩
          rw [← he] at hfind
          rw [hf] at hfind
          exact absurd hfind (by simp)
        refine ⟨j, by omega, by omega, hex, ?_⟩
        intro i hi1 hi2
        exact hmin i (by omega) hi2

/-- C2: get_rate returns a rate of 1 for same-currency pairs; otherwise
the exactly keyed stored entry wins; otherwise the reverse-direction
entry is returned algebraically inverted (the store itself is a value and
is never written by get_rate); otherwise the nearest stored entry between
1 and 7 days back is returned re-stamped with the requested date and an
annotated source; otherwise none. -/
theorem c2_get_rate_spec (s : RateStore) (fc tc : Currency) (d : Int)
    (t : FXRateType) :
    (fc = tc → ∃ r, getRate s fc tc d t = some r ∧ r.rate = 1) ∧
    (fc ≠ tc →
      (∀ r, findRate s fc tc d t = some r → getRate s fc tc d t = some r) ∧
      (findRate s fc tc d t = none →
        (∀ r, findRate s tc fc d t = some r →
          getRate s fc tc d t = some r.invert ∧ r.invert.rate = 1 / r.rate) ∧
        (findRate s tc fc d t = none →
          (getRate s fc tc d t = none ↔
            ∀ k : Nat, 1 ≤ k → k ≤ 7 →
              findRate s fc tc (d - (k : Int)) t = none) ∧
          (∀ r, getRate s fc tc d t = some r ↔
            ∃ k : Nat, 1 ≤ k ∧ k ≤ 7 ∧
              (∃ r₀, findRate s fc tc (d - (k : Int)) t = some r₀ ∧
                r = restampRate r₀ d (d - (k : Int))) ∧
              ∀ i : Nat, 1 ≤ i → i < k →
                findRate s fc tc (d - (i : Int)) t = none)))) := by
  constructor
  · intro he
    refine ⟨{ from_currency := fc, to_currency := tc, rate_date := d,
              rate_type := t, rate := 1, source := "Same Currency" }, ?_, rfl⟩
    simp [getRate, he]
  · intro hne
    constructor
    · intro r hf
      simp [getRate, hne, hf]
    · intro hf
      constructor
      · intro r hrev
        exact ⟨by simp [getRate, hne, hf, hrev], rfl⟩
      · intro hrev
        have hform : getRate s fc tc d t = scanBackAux s fc tc d t 1 7 := by
          simp [getRate, hne, hf, hrev]
        constructor
        · rw [hform, scanBackAux_none_iff]
          constructor
          · intro h k h1 h2
            exact h k h1 (by omega)
          · intro h k h1 h2
            exact h k h1 (by omega)
        · intro r
          rw [hform, scanBackAux_some_iff]
          constructor
          · rintro ⟨j, h1, h2, hex, hmin⟩
            exact ⟨j, h1, by omega, hex, hmin⟩
          · rintro ⟨j, h1, h2, hex, hmin⟩
            exact ⟨j, h1, by omega, hex, hmin⟩

/-- Concrete stored rate used by the C2 witness. -/
def rateC2 : FXRate :=
  { from_currency := Currency.USD
    to_currency := Currency.BRL
    rate_date := 5
    rate_type := FXRateType.CLOSING
    rate := 21 / 4
    source := "Sample" }

/-- C2 witness: a store holding the exactly keyed entry returns it. -/
theorem c2_get_rate_spec_witness :
    Currency.USD ≠ Currency.BRL ∧
    findRate [rateC2] Currency.USD Currency.BRL 5 FXRateType.CLOSING =
      some rateC2 ∧
    getRate [rateC2] Currency.USD Currency.BRL 5 FXRateType.CLOSING =
      some rateC2 :=
  ⟨by decide, by simp [findRate, rateC2],
   ((c2_get_rate_spec [rateC2] Currency.USD Currency.BRL 5
       FXRateType.CLOSING).2 (by decide)).1 rateC2
     (by simp [findRate, rateC2])⟩

/-- Concrete closing rate stored only on day 0, used by C3 and C7. -/
def rateAtZero : FXRate :=
  { from_currency := Currency.USD
    to_currency := Currency.BRL
    rate_date := 0
    rate_type := FXRateType.CLOSING
    rate := 2
    source := "Sample" }

/-- Store holding only rateAtZero. -/
def storeOneDay : RateStore := [rateAtZero]

/-- C3 counterexample: over the window [1, 1] no closing rate is stored
on any day of the window, yet get_average_rate returns a rate (2, taken
from day 0 through the 7-day fallback of get_rate), where the claim
requires None and forbids filling in from earlier days. -/
theorem c3_average_rate_counterexample :
    (getAverageRate storeOneDay Currency.USD Currency.BRL 1 1).map
        FXRate.rate = some 2 ∧
    findRate storeOneDay Currency.USD Currency.BRL 1 FXRateType.CLOSING =
      none := by
  have h1 : dateRange 1 1 = [1] := by
    norm_num [dateRange, List.range_succ]
  have h2 : getRate storeOneDay Currency.USD Currency.BRL 1
      FXRateType.CLOSING = some (restampRate rateAtZero 1 0) := by
    simp [getRate, findRate, storeOneDay, rateAtZero, scanBackAux]
  have h3 : (dateRange 1 1).filterMap
      (fun dd => (getRate storeOneDay Currency.USD Currency.BRL dd
        FXRateType.CLOSING).map FXRate.rate) = [2] := by
    rw [h1]
    simp [h2, restampRate, rateAtZero]
  constructor
  · simp only [getAverageRate]
    rw [if_neg (by decide : ¬(Currency.USD = Currency.BRL))]
    simp only [h3]
    norm_num
  · simp [findRate, storeOneDay, rateAtZero]

/-- C3 amended: get_average_rate (for distinct currencies) averages the
daily values produced by get_rate with the CLOSING type — which itself
falls back to the inverse pair and up to 7 prior days — over every day of
[start, end]; days where get_rate yields nothing are skipped, and None is
returned exactly when get_rate yields nothing for every day of the
window. -/
theorem c3_average_rate_amended (s : RateStore) (fc tc : Currency)
    (sd ed : Int) (h : fc ≠ tc) :
    (getAverageRate s fc tc sd ed = none ↔
      (dateRange sd ed).filterMap
        (fun dd => (getRate s fc tc dd FXRateType.CLOSING).map FXRate.rate)
        = []) ∧
    (∀ vals, vals = (dateRange sd ed).filterMap
        (fun dd => (getRate s fc tc dd FXRateType.CLOSING).map FXRate.rate) →
      vals ≠ [] →
      ∃ r, getAverageRate s fc tc sd ed = some r ∧
        r.rate = vals.sum / (vals.length : ℚ) ∧
        r.rate_type = FXRateType.AVERAGE ∧ r.rate_date = ed ∧
        r.from_currency = fc ∧ r.to_currency = tc) := by
  constructor
  · by_cases hv : (dateRange sd ed).filterMap
        (fun dd => (getRate s fc tc dd FXRateType.CLOSING).map FXRate.rate)
        = [] <;>
      simp [getAverageRate, h, hv, List.isEmpty_iff]
  · intro vals hvals hne
    subst hvals
    simp only [getAverageRate, if_neg h]
    have hemp : ((dateRange sd ed).filterMap
        (fun dd => (getRate s fc tc dd FXRateType.CLOSING).map
          FXRate.rate)).isEmpty = false := by
      simp [List.isEmpty_iff, hne]
    simp only [hemp, Bool.false_eq_true, if_neg, if_false]
    exact ⟨_, rfl, rfl, rfl, rfl, rfl, rfl⟩

/-- C3 amended witness over the window [0, 0] where the stored day 0 rate
is found. -/
theorem c3_average_rate_amended_witness :
    Currency.USD ≠ Currency.BRL ∧
    ([(2 : ℚ)] : List ℚ) ≠ [] ∧
    (∃ r, getAverageRate storeOneDay Currency.USD Currency.BRL 0 0 =
        some r ∧
      r.rate = [(2 : ℚ)].sum / (([(2 : ℚ)].length : ℚ)) ∧
      r.rate_type = FXRateType.AVERAGE ∧ r.rate_date = 0 ∧
      r.from_currency = Currency.USD ∧ r.to_currency = Currency.BRL) :=
  ⟨by decide, by simp,
   (c3_average_rate_amended storeOneDay Currency.USD Currency.BRL 0 0
       (by decide)).2 [(2 : ℚ)]
     (by
       have h1 : dateRange 0 0 = [0] := by
         norm_num [dateRange, List.range_succ]
       have h2 : getRate storeOneDay Currency.USD Currency.BRL 0
           FXRateType.CLOSING = some rateAtZero := by
         simp [getRate, findRate, storeOneDay, rateAtZero]
       rw [h1]
       simp [h2, rateAtZero])
     (by simp)⟩

/-- C7 counterexample: with a rate stored only on day 0, the forward
lookup on day 1 succeeds through the 7-day fallback while the reverse
lookup on day 1 returns none (the fallback never consults inverse keys of
prior days), so the two directions are not multiplicative inverses. -/
theorem c7_inverse_counterexample :
    (getRate storeOneDay Currency.USD Currency.BRL 1
        FXRateType.CLOSING).isSome = true ∧
    getRate storeOneDay Currency.BRL Currency.USD 1 FXRateType.CLOSING =
      none := by
  constructor
  · simp [getRate, findRate, scanBackAux, restampRate, storeOneDay, rateAtZero]
  · simp [getRate, findRate, scanBackAux, storeOneDay, rateAtZero]

/-- C7 amended: when the store holds an entry keyed (A, B, d, t) with a
positive rate and no entry keyed (B, A, d, t), the two lookup directions
both succeed and return exact multiplicative inverses. -/
theorem c7_inverse_amended (s : RateStore) (A B : Currency) (d : Int)
    (t : FXRateType) (r : FXRate)
    (hne : A ≠ B) (hf : findRate s A B d t = some r)
    (hrev : findRate s B A d t = none) (hpos : 0 < r.rate) :
    getRate s A B d t = some r ∧
    getRate s B A d t = some r.invert ∧
    r.rate * r.invert.rate = 1 := by
  have hne2 : B ≠ A := fun hx => hne hx.symm
  refine ⟨by simp [getRate, hne, hf], by simp [getRate, hne2, hrev, hf], ?_⟩
  have hz : r.rate ≠ 0 := ne_of_gt hpos
  simp [FXRate.invert]
  field_simp

/-- C7 amended witness at the concrete one-entry store on its stored
day. -/
theorem c7_inverse_amended_witness :
    Currency.USD ≠ Currency.BRL ∧
    findRate storeOneDay Currency.USD Currency.BRL 0 FXRateType.CLOSING =
      some rateAtZero ∧
    findRate storeOneDay Currency.BRL Currency.USD 0 FXRateType.CLOSING =
      none ∧
    (0 : ℚ) < rateAtZero.rate ∧
    (getRate storeOneDay Currency.USD Currency.BRL 0 FXRateType.CLOSING =
        some rateAtZero ∧
      getRate storeOneDay Currency.BRL Currency.USD 0 FXRateType.CLOSING =
        some rateAtZero.invert ∧
      rateAtZero.rate * rateAtZero.invert.rate = 1) :=
  ⟨by decide, by simp [findRate, storeOneDay, rateAtZero],
   by simp [findRate, storeOneDay, rateAtZero],
   by norm_num [rateAtZero],
   c7_inverse_amended storeOneDay Currency.USD Currency.BRL 0
     FXRateType.CLOSING rateAtZero (by decide)
     (by simp [findRate, storeOneDay, rateAtZero])
     (by simp [findRate, storeOneDay, rateAtZero])
     (by norm_num [rateAtZero])⟩

/-- Concrete BRL to USD closing rate used by the C4 witness. -/
def rateC4 : FXRate :=
  { from_currency := Currency.BRL
    to_currency := Currency.USD
    rate_date := 0
    rate_type := FXRateType.CLOSING
    rate := 1 / 5
    source := "Sample" }

/-- Concrete balance-sheet asset entry in BRL used by the C4 witness. -/
def entryC4 : TrialBalanceEntry :=
  { entry_id := "t1", entity_id := "A", period_end_date := 0,
    account_type := AccountType.BALANCE_SHEET_ASSET,
    debit_amount := 100, currency := Currency.BRL }

/-- C4: for an entry whose currency differs from the presentation
currency, the rate type is AVERAGE exactly for INCOME and EXPENSE
accounts and HISTORICAL exactly for EQUITY_TXN accounts (CLOSING for
everything else); convert_trial_balance_entry raises exactly when the
corresponding rate lookup (average over [period_start, period_end] for
AVERAGE, point lookup at period_end otherwise) resolves nothing, and a
resolved rate yields a ConvertedEntry whose converted amount is
net_amount times that rate. -/
theorem c4_convert_entry_spec (s : RateStore) (st : FXConverterState)
    (entry : TrialBalanceEntry) (pres : Currency) (pstart : Int)
    (h : entry.currency ≠ pres) :
    (rateTypeForAccount entry.account_type = FXRateType.AVERAGE ↔
      (entry.account_type = AccountType.INCOME ∨
       entry.account_type = AccountType.EXPENSE)) ∧
    (rateTypeForAccount entry.account_type = FXRateType.HISTORICAL ↔
      entry.account_type = AccountType.EQUITY_TRANSACTION) ∧
    (exceptHasError (convertTrialBalanceEntry s st entry pres pstart) = true ↔
      (if rateTypeForAccount entry.account_type = FXRateType.AVERAGE then
        getAverageRate s entry.currency pres pstart entry.period_end_date
      else
        getRate s entry.currency pres entry.period_end_date
          (rateTypeForAccount entry.account_type)) = none) ∧
    (∀ r, (if rateTypeForAccount entry.account_type = FXRateType.AVERAGE then
        getAverageRate s entry.currency pres pstart entry.period_end_date
      else
        getRate s entry.currency pres entry.period_end_date
          (rateTypeForAccount entry.account_type)) = some r →
      ∃ ce st2,
        convertTrialBalanceEntry s st entry pres pstart =
          Except.ok (ce, st2) ∧
        ce.converted_amount = entry.net_amount * r.rate ∧
        ce.fx_rate = r) := by
  refine ⟨?_, ?_, ?_, ?_⟩
  · cases ha : entry.account_type <;> simp [rateTypeForAccount, ha]
  · cases ha : entry.account_type <;> simp [rateTypeForAccount, ha]
  · cases hopt : (if rateTypeForAccount entry.account_type =
        FXRateType.AVERAGE then
        getAverageRate s entry.currency pres pstart entry.period_end_date
      else
        getRate s entry.currency pres entry.period_end_date
          (rateTypeForAccount entry.account_type)) with
    | none => simp [convertTrialBalanceEntry, h, hopt, exceptHasError]
    | some r => simp [convertTrialBalanceEntry, h, hopt, exceptHasError]
  · intro r hr
    have heq : convertTrialBalanceEntry s st entry pres pstart =
        Except.ok
          ({ original_entry := entry
             presentation_currency := pres
             fx_rate := r
             converted_amount := entry.net_amount * r.rate
             cta_amount :=
               (if entry.account_type = AccountType.BALANCE_SHEET_ASSET ∨
                   entry.account_type = AccountType.BALANCE_SHEET_LIABILITY
                then calculateCTA st entry.entity_id entry.net_amount r.rate
                else (0, st)).1
             conversion_method := "rate method per IFRS 21" },
           (if entry.account_type = AccountType.BALANCE_SHEET_ASSET ∨
               entry.account_type = AccountType.BALANCE_SHEET_LIABILITY
            then calculateCTA st entry.entity_id entry.net_amount r.rate
            else (0, st)).2) := by
      simp [convertTrialBalanceEntry, h, hr]
    exact ⟨_, _, heq, rfl, rfl⟩

/-- C4 witness: a BRL balance-sheet entry converted to USD with a stored
closing rate. -/
theorem c4_convert_entry_spec_witness :
    entryC4.currency ≠ Currency.USD ∧
    ∃ ce st2,
      convertTrialBalanceEntry [rateC4] {} entryC4 Currency.USD (-30) =
        Except.ok (ce, st2) ∧
      ce.converted_amount = entryC4.net_amount * rateC4.rate ∧
      ce.fx_rate = rateC4 :=
  ⟨by decide,
   (c4_convert_entry_spec [rateC4] {} entryC4 Currency.USD (-30)
       (by decide)).2.2.2 rateC4
     (by simp [rateTypeForAccount, entryC4, getRate, findRate, rateC4])⟩

/-- Length of the generated amortization entries equals the fuel of the
month loop. -/
lemma buildEntriesAux_length (p n : String) (m v : ℚ) :
    ∀ (fuel k : Nat) (a : ℚ),
      (buildEntriesAux p n m v k a fuel).length = fuel := by
  intro fuel
  induction fuel with
  | zero =>
    intro k a
    rfl
  | succ f ih =>
    intro k a
    simp [buildEntriesAux, ih]

/-- Every generated entry carries the constant straight-line monthly
amortization. -/
lemma buildEntriesAux_monthly (p n : String) (m v : ℚ) :
    ∀ (fuel k : Nat) (a : ℚ) e, e ∈ buildEntriesAux p n m v k a fuel →
      e.monthly_amortization = m := by
  intro fuel
  induction fuel with
  | zero =>
    intro k a e he
    simp [buildEntriesAux] at he
  | succ f ih =>
    intro k a e he
    rw [buildEntriesAux] at he
    rcases List.mem_cons.mp he with he1 | he2
    · rw [he1]
    · exact ih (k + 1) (a + m) e he2

/-- Sum of the monthly amortization column over the generated entries. -/
lemma buildEntriesAux_sum (p n : String) (m v : ℚ) :
    ∀ (fuel k : Nat) (a : ℚ),
      ((buildEntriesAux p n m v k a fuel).map
        AmortizationEntry.monthly_amortization).sum = (fuel : ℚ) * m := by
  intro fuel
  induction fuel with
  | zero =>
    intro k a
    simp [buildEntriesAux]
  | succ f ih =>
    intro k a
    rw [buildEntriesAux]
    simp only [List.map_cons, List.sum_cons, ih (k + 1) (a + m)]
    push_cast
    ring

/-- Remaining value recorded on the final generated entry. -/
lemma buildEntriesAux_last (p n : String) (m v : ℚ) :
    ∀ (fuel k : Nat) (a : ℚ), fuel ≠ 0 →
      ((buildEntriesAux p n m v k a fuel).getLast?).map
        AmortizationEntry.remaining_value =
        some (v - (a + (fuel : ℚ) * m)) := by
  intro fuel
  induction fuel with
  | zero =>
    intro k a hf
    exact absurd rfl hf
  | succ f ih =>
    intro k a _
    rw [buildEntriesAux]
    cases f with
    | zero =>
      simp [buildEntriesAux]
    | succ f2 =>
      have ht := ih (k + 1) (a + m) (Nat.succ_ne_zero f2)
      rw [buildEntriesAux] at ht ⊢
      rw [List.getLast?_cons_cons, ht]
      have harith : v - (a + m + ((f2 + 1 : ℕ) : ℚ) * m) =
          v - (a + ((f2 + 1 + 1 : ℕ) : ℚ) * m) := by
        push_cast
        ring
      rw [harith]

/-- C8: an intangible with a configured nonzero useful life of y years
produces exactly min(months, y*12) entries, each with monthly
amortization fair value / (y*12); when the requested months cover the
full life the monthly column sums exactly to the fair value and the final
remaining value is exactly 0; an intangible with no configured (or zero)
useful life is skipped without error, and every schedule produced by
create_monthly_schedule arises from such a per-intangible schedule. -/
theorem c8_amortization_schedule (sched : List (String × Nat))
    (ppaId name : String) (v : ℚ) (months : Nat) :
    (∀ y : Nat, List.lookup name sched = some y → y ≠ 0 →
      ∃ l, schedFor sched ppaId name v months = some l ∧
        l.length = min months (y * 12) ∧
        (∀ e ∈ l, e.monthly_amortization = v / ((y * 12 : Nat) : ℚ)) ∧
        (y * 12 ≤ months →
          (l.map AmortizationEntry.monthly_amortization).sum = v ∧
          (l.getLast?).map AmortizationEntry.remaining_value = some 0)) ∧
    (List.lookup name sched = none →
      schedFor sched ppaId name v months = none) ∧
    (List.lookup name sched = some 0 →
      schedFor sched ppaId name v months = none) ∧
    (∀ (ppa : PurchasePriceAllocation) nl,
      nl ∈ createMonthlySchedule ppa months →
      ∃ nv, nv ∈ ppa.intangible_assets ∧ nv.1 = nl.1 ∧
        schedFor ppa.amortization_schedule ppa.ppa_id nv.1 nv.2 months =
          some nl.2) := by
  refine ⟨?_, ?_, ?_, ?_⟩
  · intro y hy hy0
    have h12 : ((y * 12 : ℕ) : ℚ) ≠ 0 := by
      exact_mod_cast Nat.mul_ne_zero hy0 (by norm_num)
    refine ⟨buildEntriesAux ppaId name (v / ((y * 12 : Nat) : ℚ)) v 0 0
        (min months (y * 12)), ?_, ?_, ?_, ?_⟩
    · simp [schedFor, hy, hy0]
    · exact buildEntriesAux_length ppaId name _ v _ 0 0
    · intro e he
      exact buildEntriesAux_monthly ppaId name _ v _ 0 0 e he
    · intro hcover
      have hmin : min months (y * 12) = y * 12 := min_eq_right hcover
      constructor
      · rw [hmin, buildEntriesAux_sum]
        field_simp
      · rw [hmin, buildEntriesAux_last ppaId name _ v (y * 12) 0 0
          (Nat.mul_ne_zero hy0 (by norm_num))]
        congr 1
        field_simp
  · intro hy
    simp [schedFor, hy]
  · intro hy
    simp [schedFor, hy]
  · intro ppa nl hmem
    simp only [createMonthlySchedule, List.mem_filterMap] at hmem
    rcases hmem with ⟨nv, hnv, hopt⟩
    rcases Option.map_eq_some'.mp hopt with ⟨l, hl, hpair⟩
    exact ⟨nv, hnv, by rw [← hpair], by rw [← hpair]; exact hl⟩

/-- C8 witness: a 2-year intangible of fair value 240 over a 120-month
request. -/
theorem c8_amortization_schedule_witness :
    List.lookup ("brand") [(("brand" : String), (2 : Nat))] = some 2 ∧
    (2 : Nat) ≠ 0 ∧
    ∃ l, schedFor [(("brand" : String), (2 : Nat))] ("p1") ("brand") 240 120 =
        some l ∧
      l.length = min 120 (2 * 12) ∧
      (∀ e ∈ l, e.monthly_amortization = (240 : ℚ) / ((2 * 12 : Nat) : ℚ)) ∧
      (2 * 12 ≤ 120 →
        (l.map AmortizationEntry.monthly_amortization).sum = 240 ∧
        (l.getLast?).map AmortizationEntry.remaining_value = some 0) :=
  ⟨rfl, by decide,
   (c8_amortization_schedule [(("brand" : String), (2 : Nat))] ("p1")
       ("brand") 240 120).1 2 rfl (by decide)⟩

end Consolidation
